import Mathlib

/-!
Shallow embedding of the notification pipeline in `src/notif-handler.js`:
request parsing, signature verification, subscription-confirmation
handshake, event-name derivation, tenant-context resolution with a
request-coalescing cache, and handler dispatch with aggregated failure
reporting. Strings are modelled by `String` (with a `List Char` core for
the subject-splitting function), JavaScript promises by a settle time
together with an optional rejection error, and the process-wide ship
cache by an explicit association list threaded through the resolver.
-/

set_option autoImplicit false

namespace Hull

/-! ## Event-name derivation (`getHandlerName`) -/

/-- JavaScript `subject.split(c)` on a list of characters: always returns a
non-empty list of (possibly empty) segments. -/
def splitOnChar (c : Char) : List Char → List (List Char)
  | [] => [[]]
  | x :: xs =>
    if x = c then [] :: splitOnChar c xs
    else
      match splitOnChar c xs with
      | [] => [[x]]
      | y :: ys => (x :: y) :: ys

/-- The fixed rename table `ModelsMapping` applied to the model segment:
`user_report → user`, `users_segment → segment`, all other names pass
through unchanged (`ModelsMapping[modelName] || modelName`). -/
def mapModelL (m : List Char) : List Char :=
  if m = ("user_report").toList then ("user").toList
  else if m = ("users_segment").toList then ("segment").toList
  else m

/-- Join segments with the separator `:` (the `.join(':')` step). -/
def joinColon : List (List Char) → List Char
  | [] => []
  | [x] => x
  | x :: xs => x ++ ':' :: joinColon xs

/-- `_.compact([model, action]).join(':')`: drop the absent action and any
empty segment, then join with `:`. -/
def compactJoin (model : List Char) (action : Option (List Char)) : List Char :=
  joinColon ((model :: action.toList).filter (fun l => !l.isEmpty))

/-- Core of `getHandlerName` on character lists: split the subject on `:`,
take the first two segments as `(modelName, action)`, rename the model,
compact and rejoin. -/
def getHandlerNameL (subject : List Char) : List Char :=
  let parts := splitOnChar ':' subject
  compactJoin (mapModelL (parts.headD [])) parts[1]?

/-- `getHandlerName` of `src/notif-handler.js`, on `String`. -/
def getHandlerName (s : String) : String :=
  String.mk (getHandlerNameL s.toList)

/-- `mapModelL` lifted to `String`, for stating the pass-through clause. -/
def mapModel (s : String) : String :=
  String.mk (mapModelL s.toList)

theorem splitOnChar_of_not_mem (c : Char) :
    ∀ l : List Char, c ∉ l → splitOnChar c l = [l] := by
  intro l hl
  induction l with
  | nil => rfl
  | cons x xs ih =>
    have hx : ¬ x = c := fun h => hl (by simp [h])
    have hxs : c ∉ xs := fun h => hl (List.mem_cons_of_mem _ h)
    simp [splitOnChar, hx, ih hxs]

theorem splitOnChar_append (c : Char) :
    ∀ m rest : List Char, c ∉ m →
      splitOnChar c (m ++ c :: rest) = m :: splitOnChar c rest := by
  intro m rest hm
  induction m with
  | nil => simp [splitOnChar]
  | cons x xs ih =>
    have hx : ¬ x = c := fun h => hm (by simp [h])
    have hxs : c ∉ xs := fun h => hm (List.mem_cons_of_mem _ h)
    simp [splitOnChar, hx, ih hxs]

theorem mapModelL_ne_nil (m : List Char) (hm : m ≠ []) : mapModelL m ≠ [] := by
  unfold mapModelL
  split
  · decide
  · split
    · decide
    · exact hm

theorem getHandlerNameL_no_colon (s : List Char) (hs : ':' ∉ s) :
    getHandlerNameL s = mapModelL s := by
  unfold getHandlerNameL
  rw [splitOnChar_of_not_mem ':' s hs]
  cases h : mapModelL s with
  | nil => simp [compactJoin, joinColon, h]
  | cons y ys => simp [compactJoin, joinColon, h]

theorem getHandlerNameL_colon (m a : List Char)
    (hm : ':' ∉ m) (ha : ':' ∉ a) (hm0 : m ≠ []) (ha0 : a ≠ []) :
    getHandlerNameL (m ++ ':' :: a) = mapModelL m ++ ':' :: a := by
  unfold getHandlerNameL
  rw [splitOnChar_append ':' m a hm, splitOnChar_of_not_mem ':' a ha]
  show compactJoin (mapModelL m) (some a) = mapModelL m ++ ':' :: a
  unfold compactJoin
  have h1 : mapModelL m ≠ [] := mapModelL_ne_nil m hm0
  cases hmm : mapModelL m with
  | nil => exact absurd hmm h1
  | cons y ys =>
    cases a with
    | nil => exact absurd rfl ha0
    | cons z zs => simp [joinColon]

/-! ## Data model: envelopes, notifications, handlers -/

/-- An opaque JSON value carried in payloads (user objects, event entries,
segment entries). -/
abbrev JsVal := String

/-- Identity of a registered handler callback. -/
abbrev HandlerId := Nat

/-- The raw decoded delivery envelope stored in `req.hull.message`.
The field `type` models the envelope's `Type` field (`Type` is a Lean
keyword). -/
structure SnsMessage where
  type : String
  SubscribeURL : String
  Subject : String
  Message : String
  Timestamp : String
deriving DecidableEq, Repr

/-- The decoded notification payload as destructured by `processHandlers`:
`const { user, events = [], segments = [] } = notification.message`.
Absent `events`/`segments` are already the empty list. -/
structure MsgBody where
  user : Option JsVal
  events : List JsVal
  segments : List JsVal
deriving DecidableEq, Repr

/-- A timestamp value as a JavaScript value: either the raw envelope
`Timestamp` string, or the `Date` object `new Date(s)` built from it.
The two are distinct JavaScript values. -/
inductive TimeVal
  | raw (s : String)
  | date (s : String)
deriving DecidableEq, Repr

/-- `req.hull.notification` as built by `verifySignature`:
`{ subject: message.Subject, message: payload, timestamp: new Date(message.Timestamp) }`.
`message = none` models a falsy parsed payload. -/
structure Notification where
  subject : String
  message : Option MsgBody
  timestamp : TimeVal
deriving DecidableEq, Repr

/-- The synthesized per-event payload `{ user, segments, event }`. -/
structure EventMsg where
  user : Option JsVal
  segments : List JsVal
  event : JsVal
deriving DecidableEq, Repr

/-- The synthesized notification handed to `event` handlers:
`{ message: { user, segments, event }, subject: 'event', timestamp: message.Timestamp }`. -/
structure SynthNotification where
  message : EventMsg
  subject : String
  timestamp : TimeVal
deriving DecidableEq, Repr

/-- The first argument a dispatched handler receives: the original
notification for a direct match, or a synthesized notification for the
per-event fan-out. -/
inductive DispatchArg
  | orig (n : Notification)
  | synth (p : SynthNotification)
deriving DecidableEq, Repr

/-- One started handler invocation: which handler runs, on which argument. -/
structure Invocation where
  handler : HandlerId
  arg : DispatchArg
deriving DecidableEq, Repr

/-- The handler registry `_handlers`: canonical event name to the ordered
list of registered handlers (`_handlers[k] || []` reads as the empty list). -/
abbrev HandlerMap := String → List HandlerId

/-- The registry of a freshly constructed `NotifHandler`. -/
def emptyHandlers : HandlerMap := fun _ => []

/-- `addEventHandler(evt, fn)`: canonicalize the key through
`getHandlerName` and append `fn` to the list stored there. -/
def addEventHandler (h : HandlerMap) (evt : String) (f : HandlerId) : HandlerMap :=
  fun k => if k = getHandlerName evt then h k ++ [f] else h k

/-! ## Handler dispatch (`processHandlers`) -/

/-- The invocations pushed for the handlers registered under the
notification's own canonical event name. -/
def directInvocations (handlers : HandlerMap) (subjectRaw : String)
    (n : Notification) : List Invocation :=
  (handlers (getHandlerName subjectRaw)).map (fun f => ⟨f, .orig n⟩)

/-- The invocations pushed by the `user:update` sub-event fan-out: when
handlers are registered under `event`, the canonical name is `user:update`
and the payload is truthy with a non-empty `events` list, one invocation
per (event entry, `event` handler) pair, each on a synthesized
notification with subject `event` and the raw envelope timestamp. -/
def synthInvocations (handlers : HandlerMap) (subjectRaw timestampRaw : String)
    (n : Notification) : List Invocation :=
  if 0 < (handlers ("event")).length ∧ getHandlerName subjectRaw = "user:update" ∧ n.message.isSome then
    match n.message with
    | some body =>
      if 0 < body.events.length then
        body.events.flatMap (fun ev =>
          (handlers ("event")).map (fun f =>
            ⟨f, .synth ⟨⟨body.user, body.segments, ev⟩, "event", .raw timestampRaw⟩⟩))
      else []
    | none => []
  else []

/-- The full `processing` list built by `processHandlers`, in push order:
direct matches first, then the synthesized per-event invocations. -/
def buildInvocations (handlers : HandlerMap) (subjectRaw timestampRaw : String)
    (n : Notification) : List Invocation :=
  directInvocations handlers subjectRaw n ++ synthInvocations handlers subjectRaw timestampRaw n

/-! ## Promise outcomes and `Promise.all` aggregation -/

/-- A JavaScript error value as observed by the rejection handler:
`err.toString()` and the optional `err.status`. -/
structure JsError where
  msg : String
  status : Option Nat
deriving DecidableEq, Repr

/-- A handler's returned promise, modelled by the instant it settles and
its outcome (`none` = fulfilled, `some e` = rejected with `e`). -/
structure Prom where
  settle : Nat
  error : Option JsError
deriving DecidableEq, Repr

/-- The instant at which the last of the promises settles. -/
def maxSettle (ps : List Prom) : Nat :=
  ps.foldl (fun a p => max a p.settle) 0

/-- The rejections among the promises, with their settle instants, in
list order. -/
def rejectionsOf (ps : List Prom) : List (Nat × JsError) :=
  ps.filterMap (fun p => p.error.map (fun e => (p.settle, e)))

/-- One step of scanning for the earliest rejection: keep the
earlier-settling of the two (first in list order among ties). -/
def earliestStep (acc : Option (Nat × JsError)) (r : Nat × JsError) :
    Option (Nat × JsError) :=
  match acc with
  | none => some r
  | some q => if r.1 < q.1 then some r else some q

/-- The rejection `Promise.all` observes: the earliest-settling rejection
(first in list order among ties), or `none` when every promise fulfills. -/
def earliestRejection (ps : List Prom) : Option (Nat × JsError) :=
  (rejectionsOf ps).foldl earliestStep none

/-- JavaScript `err.status || 400`: any falsy status (absent or `0`)
defaults to `400`. -/
def jsOrStatus (s : Option Nat) : Nat :=
  match s with
  | none => 400
  | some n => if n = 0 then 400 else n

/-- What a middleware stage does with the request. -/
inductive StepOutcome
  | next
  | respond (body : String) (status : Nat)
deriving DecidableEq, Repr

/-- The decision `processHandlers` reaches and the instant it reaches it. -/
structure Decision where
  time : Nat
  outcome : StepOutcome
deriving DecidableEq, Repr

/-- The tail of `processHandlers`: run every started invocation, then
`Promise.all(processing).then(next, err => res.handleError(err.toString(), err.status || 400))`.
With no started invocation, `next()` runs immediately. -/
def dispatchDecision (run : Invocation → Prom) (invs : List Invocation) : Decision :=
  let ps := invs.map run
  if 0 < ps.length then
    match earliestRejection ps with
    | some te => ⟨te.1, .respond te.2.msg (jsOrStatus te.2.status)⟩
    | none => ⟨maxSettle ps, .next⟩
  else ⟨0, .next⟩

/-! ## Tenant-config cache (`enrichWithHullClient` / `getCurrentShip`) -/

/-- The in-flight-or-resolved fetch stored in `_cache[shipId]`: the ship id
it fetches and the issuance number of the underlying `client.get` call,
distinguishing distinct fetches. -/
structure FetchHandle where
  shipId : String
  gen : Nat
deriving DecidableEq, Repr

/-- The closure state of `enrichWithHullClient`: the `_cache` association
(`null`/absent entries are simply absent) plus the number of `client.get`
fetches issued so far. -/
structure CacheState where
  cache : List (String × FetchHandle)
  fetchCount : Nat
deriving DecidableEq, Repr

/-- Reading `_cache[shipId]`. -/
def lookupCache (c : List (String × FetchHandle)) (k : String) : Option FetchHandle :=
  match c.find? (fun p => p.1 == k) with
  | some p => some p.2
  | none => none

/-- `getCurrentShip(shipId, client, forceUpdate)`:
`if (forceUpdate) _cache[shipId] = null; _cache[shipId] = _cache[shipId] || client.get(shipId); return _cache[shipId]`. -/
def getCurrentShip (st : CacheState) (shipId : String) (forceUpdate : Bool) :
    CacheState × FetchHandle :=
  let st1 := if forceUpdate
    then { st with cache := st.cache.filter (fun p => p.1 != shipId) }
    else st
  match lookupCache st1.cache shipId with
  | some h => (st1, h)
  | none =>
    let h : FetchHandle := ⟨shipId, st1.fetchCount⟩
    ({ cache := (shipId, h) :: st1.cache, fetchCount := st1.fetchCount + 1 }, h)

/-- A query-parameter value as delivered by the HTTP layer: a scalar
string, a (possibly empty) list of strings, or absent. -/
inductive QueryVal
  | str (s : String)
  | arr (l : List String)
  | absent
deriving DecidableEq, Repr

/-- The three query parameters read by `enrichWithHullClient`. -/
structure Query where
  organization : QueryVal
  ship : QueryVal
  secret : QueryVal
deriving DecidableEq, Repr

/-- JavaScript `String.prototype.trim`: strip whitespace from both ends
(modelled on the character list so the kernel can evaluate it). -/
def jsTrimL (l : List Char) : List Char :=
  ((l.dropWhile Char.isWhitespace).reverse.dropWhile Char.isWhitespace).reverse

/-- `jsTrimL` on `String`. -/
def jsTrim (s : String) : String := String.mk (jsTrimL s.toList)

/-- One pass of the config-building reduce: a scalar is kept, a non-empty
list contributes its first element, and the kept value is trimmed;
an empty list or an absent parameter contributes nothing. -/
def normParam : QueryVal → Option String
  | .str s => some (jsTrim s)
  | .arr [] => none
  | .arr (x :: _) => some (jsTrim x)
  | .absent => none

/-- JavaScript truthiness of the normalized field: present and non-empty. -/
def jsTruthy : Option String → Bool
  | none => false
  | some s => s != ""

/-- How `enrichWithHullClient` leaves the request: with a constructed
client (organization, id, secret) awaiting the ship fetch, or skipped with
no tenant context attached. -/
inductive EnrichOutcome
  | withClient (organization id secret : String) (ship : FetchHandle)
  | skipped
deriving DecidableEq, Repr

/-- The middleware returned by `enrichWithHullClient()`: normalize the
three parameters, force a cache refresh when the envelope subject is
`ship:update`, and only when all three are truthy construct the client
and resolve the ship through the cache. -/
def enrich (q : Query) (msgSubject : Option String) (st : CacheState) :
    CacheState × EnrichOutcome :=
  let org := normParam q.organization
  let ship := normParam q.ship
  let secret := normParam q.secret
  let force := msgSubject == some "ship:update"
  if jsTruthy org && jsTruthy ship && jsTruthy secret then
    match org, ship, secret with
    | some o, some s, some sec =>
      let r := getCurrentShip st s force
      (r.1, .withClient o s sec r.2)
    | _, _, _ => (st, .skipped)
  else (st, .skipped)

/-! ## Signature verification (`verifySignature`) -/

/-- The options `verifySignature` is constructed with. `hasOnSubscribe`
records whether `options.onSubscribe` is a function. -/
structure VerifyOptions where
  enforceValidation : Bool
  hasOnSubscribe : Bool
  groupTraits : Bool
deriving DecidableEq, Repr

/-- What the verification stage does with the request: respond terminally,
call `next()` with the built notification attached, or do neither. -/
inductive VerifyAction
  | respond (body : String) (status : Nat)
  | proceed (n : Notification)
  | stall
deriving DecidableEq, Repr

/-- The observable result of the verification stage: whether the invalid
signature warning was logged, whether `options.onSubscribe` ran, and the
request action taken. -/
structure VerifyResult where
  warned : Bool
  onSubscribeInvoked : Bool
  action : VerifyAction
deriving DecidableEq, Repr

/-- The payload after the optional trait grouping:
`if (payload && payload.user && options.groupTraits) payload.user = group(payload.user)`. -/
def applyGroupTraits (opts : VerifyOptions) (group : JsVal → JsVal)
    (payload : Option MsgBody) : Option MsgBody :=
  match payload with
  | some body =>
    match body.user with
    | some u =>
      if opts.groupTraits then some { body with user := some (group u) } else some body
    | none => some body
  | none => none

/-- The branch of `verifySignature` on the envelope's `Type`, reached
after the validator callback decided to continue. Inputs supplied by the
environment: whether the handshake GET succeeds, and the result of
`JSON.parse(message.Message)` (`Except.error` = parse throws, `Except.ok`
= the parsed payload, possibly falsy). Returns (onSubscribeInvoked,
action). -/
def verifyBranch (opts : VerifyOptions) (group : JsVal → JsVal) (m : SnsMessage)
    (handshakeOk : Bool) (parsed : Except Unit (Option MsgBody)) :
    Bool × VerifyAction :=
  if m.type = "SubscriptionConfirmation" then
    if handshakeOk then (opts.hasOnSubscribe, .respond "subscribed" 200)
    else (false, .respond "Failed to subscribe" 400)
  else if m.type = "Notification" then
    match parsed with
    | .error _ => (false, .respond "Invalid message" 400)
    | .ok payload =>
      (false, .proceed ⟨m.Subject, applyGroupTraits opts group payload, .date m.Timestamp⟩)
  else (false, .stall)

/-- The middleware returned by `verifySignature(options)`. `msg` is
`req.hull.message` (`none` = falsy); `sigErr` is the validator's verdict
(`some e` = invalid signature with error text `e`). -/
def verifySignatureStep (opts : VerifyOptions) (group : JsVal → JsVal)
    (msg : Option SnsMessage) (sigErr : Option String)
    (handshakeOk : Bool) (parsed : Except Unit (Option MsgBody)) : VerifyResult :=
  match msg with
  | none => ⟨false, false, .respond "Empty Message" 400⟩
  | some m =>
    match sigErr with
    | some e =>
      if opts.enforceValidation then ⟨false, false, .respond e 400⟩
      else
        let b := verifyBranch opts group m handshakeOk parsed
        ⟨true, b.1, b.2⟩
    | none =>
      let b := verifyBranch opts group m handshakeOk parsed
      ⟨false, b.1, b.2⟩

/-- The options `NotifHandler` passes to `verifySignature`:
`{ onSubscribe: options.onSubscribe, enforceValidation: false, groupTraits: options.groupTraits !== false }`. -/
def notifHandlerVerifyOpts (userGroupTraits : Option Bool) (hasOnSubscribe : Bool) :
    VerifyOptions :=
  { enforceValidation := false
    hasOnSubscribe := hasOnSubscribe
    groupTraits := userGroupTraits != some false }

/-! ## Body parsing (`parseRequest`) -/

/-- What the body-parsing stage does with the request. -/
inductive ParseOutcome
  | respond (body : String) (status : Nat)
  | next (envelope : SnsMessage)
deriving DecidableEq, Repr

/-- The middleware returned by `parseRequest()`: a failed body read or a
`JSON.parse` throw responds `Invalid body` with status 400; otherwise the
decoded envelope is attached and `next()` runs. The query parameters `q`
play no role in this stage. -/
def parseRequest (parse : String → Option SnsMessage) (q : Query)
    (readRes : Option String) : ParseOutcome :=
  match readRes with
  | none => .respond "Invalid body" 400
  | some body =>
    match parse body with
    | none => .respond "Invalid body" 400
    | some env => .next env

/-! ## Concrete instances used by witnesses and counterexamples -/

/-- A concrete `user:update` notification with one embedded event. -/
def n0 : Notification :=
  ⟨"user:update", some ⟨some ("u"), [("e1")], []⟩, .date ("T0")⟩

/-- A registry with one handler registered under the reserved key. -/
def handlers0 : HandlerMap := addEventHandler emptyHandlers ("event") 7

/-- A handler environment: handler 1 fulfills at instant 5, every other
handler rejects at instant 0 with a status-less error. -/
def run0 : Invocation → Prom :=
  fun inv => if inv.handler = 1 then ⟨5, none⟩ else ⟨0, some ⟨"boom", none⟩⟩

/-- Two started invocations for `run0`. -/
def invs0 : List Invocation := [⟨1, .orig n0⟩, ⟨2, .orig n0⟩]

/-- The timestamp carried by the argument of a synthesized invocation. -/
def synthTimestamp : DispatchArg → Option TimeVal
  | .synth p => some p.timestamp
  | .orig _ => none

/-- An empty cache state. -/
def st0 : CacheState := ⟨[], 0⟩

/-- A concrete query with all three tenant parameters present. -/
def q1 : Query := ⟨.str (" org "), .arr [("s1")], .str ("sec")⟩

/-- A concrete query with the secret missing. -/
def q2 : Query := ⟨.str ("org"), .str ("s1"), .absent⟩

/-- Options with strict signature enforcement configured. -/
def optsStrict : VerifyOptions := ⟨true, false, true⟩

/-- A concrete notification envelope. -/
def m0 : SnsMessage := ⟨"Notification", "", "user:update", "{}", "T0"⟩

/-- A concrete envelope of an unrecognized type. -/
def mUnknown : SnsMessage := ⟨"Whatever", "", "", "", "T0"⟩

/-- A concrete subscription-confirmation envelope. -/
def mSub : SnsMessage := ⟨"SubscriptionConfirmation", "http://x", "", "", "T0"⟩

/-! ## Generic lemmas -/

theorem earliestGo (rs : List (Nat × JsError)) :
    ∀ q0 : Nat × JsError,
      ∃ q : Nat × JsError,
        rs.foldl earliestStep (some q0) = some q
        ∧ (q = q0 ∨ q ∈ rs) ∧ q.1 ≤ q0.1 ∧ ∀ r ∈ rs, q.1 ≤ r.1 := by
  induction rs with
  | nil =>
    intro q0
    exact ⟨q0, rfl, Or.inl rfl, Nat.le_refl _, by intro r hr; cases hr⟩
  | cons r rs ih =>
    intro q0
    by_cases hlt : r.1 < q0.1
    · obtain ⟨q, hf, hm, hle, hall⟩ := ih r
      refine ⟨q, ?_, ?_, ?_, ?_⟩
      · rw [List.foldl_cons, show earliestStep (some q0) r = some r by simp [earliestStep, hlt]]
        exact hf
      · rcases hm with h | h
        · exact Or.inr (h ▸ List.mem_cons_self r rs)
        · exact Or.inr (List.mem_cons_of_mem _ h)
      · exact Nat.le_trans hle (Nat.le_of_lt hlt)
      · intro x hx
        rcases List.mem_cons.mp hx with h | h
        · rw [h]; exact hle
        · exact hall x h
    · obtain ⟨q, hf, hm, hle, hall⟩ := ih q0
      refine ⟨q, ?_, ?_, ?_, ?_⟩
      · rw [List.foldl_cons, show earliestStep (some q0) r = some q0 by simp [earliestStep, hlt]]
        exact hf
      · rcases hm with h | h
        · exact Or.inl h
        · exact Or.inr (List.mem_cons_of_mem _ h)
      · exact hle
      · intro x hx
        rcases List.mem_cons.mp hx with h | h
        · rw [h]; exact Nat.le_trans hle (Nat.le_of_not_lt hlt)
        · exact hall x h

theorem earliestRejection_spec (ps : List Prom) (t : Nat) (e : JsError)
    (h : earliestRejection ps = some (t, e)) :
    (t, e) ∈ rejectionsOf ps ∧ ∀ r ∈ rejectionsOf ps, t ≤ r.1 := by
  unfold earliestRejection at h
  cases hrs : rejectionsOf ps with
  | nil => rw [hrs] at h; cases h
  | cons r rs =>
    rw [hrs, List.foldl_cons, show earliestStep none r = some r from rfl] at h
    obtain ⟨q, hf, hm, hle, hall⟩ := earliestGo rs r
    have hq : q = (t, e) := by rw [hf] at h; exact Option.some.inj h
    constructor
    · rcases hm with h' | h'
      · rw [← hq, h']; exact List.mem_cons_self r rs
      · rw [← hq]; exact List.mem_cons_of_mem _ h'
    · intro x hx
      rcases List.mem_cons.mp hx with h' | h'
      · rw [h']
        have := hle
        rw [hq] at this
        exact this
      · have := hall x h'
        rw [hq] at this
        exact this

theorem length_flatMap_const {α β γ : Type} (l : List α) (g : List β) (mk : α → β → γ) :
    (l.flatMap (fun a => g.map (mk a))).length = l.length * g.length := by
  induction l with
  | nil => simp
  | cons x xs ih =>
    simp only [List.flatMap_cons, List.length_append, List.length_map, ih, List.length_cons]
    ring

theorem lookupCache_erase (c : List (String × FetchHandle)) (k : String) :
    lookupCache (c.filter (fun p => p.1 != k)) k = none := by
  have h : (c.filter (fun p => p.1 != k)).find? (fun p => p.1 == k) = none := by
    rw [List.find?_eq_none]
    intro x hx
    have hxf := List.of_mem_filter hx
    simpa using hxf
  unfold lookupCache
  rw [h]

theorem lookupCache_insert (c : List (String × FetchHandle)) (k : String) (h : FetchHandle) :
    lookupCache ((k, h) :: c) k = some h := by
  simp [lookupCache, List.find?_cons]

/-! ## Claim theorems -/

/-- C4: event-name derivation is a pure function of the subject string:
the subject is split on `:` into `(modelName, action)`; the rename table
maps `user_report` to `user` and `users_segment` to `segment`, with every
other model name passing through unchanged; the canonical name is
`modelName` and `action` joined by `:`, omitting either side if absent,
so a subject with no `:` yields the mapped model name alone
(`user_report:update` yields `user:update`, `users_segment:delete` yields
`segment:delete`, `widget:create` yields `widget:create`). -/
theorem event_name_derivation_canonical (s m a : List Char)
    (hs : ':' ∉ s) (hm : ':' ∉ m) (ha : ':' ∉ a) (hm0 : m ≠ []) (ha0 : a ≠ []) :
    getHandlerName ("user_report:update") = "user:update"
    ∧ getHandlerName ("users_segment:delete") = "segment:delete"
    ∧ getHandlerName ("widget:create") = "widget:create"
    ∧ mapModelL (("user_report").toList) = ("user").toList
    ∧ mapModelL (("users_segment").toList) = ("segment").toList
    ∧ (m ≠ ("user_report").toList → m ≠ ("users_segment").toList → mapModelL m = m)
    ∧ getHandlerNameL s = mapModelL s
    ∧ getHandlerNameL (m ++ ':' :: a) = mapModelL m ++ ':' :: a := by
  refine ⟨by decide, by decide, by decide, by decide, by decide, ?_, ?_, ?_⟩
  · intro h1 h2
    unfold mapModelL
    rw [if_neg h1, if_neg h2]
  · exact getHandlerNameL_no_colon s hs
  · exact getHandlerNameL_colon m a hm ha hm0 ha0

/-- C4 witness: the derivation theorem evaluated at the subject pieces
`widget`, `user_report` and `update`. -/
theorem event_name_derivation_canonical_witness :
    getHandlerNameL (("user_report").toList ++ ':' :: ("update").toList)
      = mapModelL (("user_report").toList) ++ ':' :: ("update").toList :=
  (event_name_derivation_canonical (("widget").toList) (("user_report").toList)
      (("update").toList) (by decide) (by decide) (by decide) (by decide)
      (by decide)).2.2.2.2.2.2.2

/-- C10: handler registration canonicalizes its key through the same
rename table used at dispatch: `addEventHandler(e, f)` appends `f` to the
list stored under `getHandlerName(e)`, so registering under
`user_report:update` and under `user:update` accumulate into the same
handler list, and both match notifications whose subject derives to
`user:update`. -/
theorem registration_canonicalizes_key (h : HandlerMap) (e : String)
    (f g : HandlerId) (n : Notification) :
    addEventHandler h e f (getHandlerName e) = h (getHandlerName e) ++ [f]
    ∧ getHandlerName ("user_report:update") = getHandlerName ("user:update")
    ∧ addEventHandler (addEventHandler h ("user_report:update") f) ("user:update") g ("user:update")
        = h ("user:update") ++ [f, g]
    ∧ (⟨f, .orig n⟩ : Invocation)
        ∈ directInvocations (addEventHandler h ("user_report:update") f) ("user_report:update") n
    ∧ (⟨f, .orig n⟩ : Invocation)
        ∈ directInvocations (addEventHandler h ("user_report:update") f) ("user:update") n := by
  have e1 : getHandlerName ("user_report:update") = "user:update" := by decide
  have e2 : getHandlerName ("user:update") = "user:update" := by decide
  refine ⟨?_, by decide, ?_, ?_, ?_⟩
  · simp [addEventHandler]
  · simp [addEventHandler, e1, e2]
  · unfold directInvocations
    rw [e1]
    refine List.mem_map_of_mem _ ?_
    simp [addEventHandler, e1]
  · unfold directInvocations
    rw [e2]
    refine List.mem_map_of_mem _ ?_
    simp [addEventHandler, e1, e2]

/-- C2 counterexample: with one handler under `event` and a `user:update`
notification carrying one embedded event, the synthesized invocation's
timestamp is the raw envelope `Timestamp` string, which is not the
original notification's timestamp (a `Date` built from that string) —
so the synthesized payloads do not inherit the notification's timestamp. -/
theorem fanout_timestamp_not_notification_timestamp :
    ¬ ∀ inv ∈ synthInvocations handlers0 ("user:update") ("T0") n0,
        synthTimestamp inv.arg = some n0.timestamp := by decide

/-- C2 (amended): for every notification whose canonical event name is
`user:update` and whose payload contains a non-empty `events` list of
length N, with M > 0 handlers registered under the reserved key `event`,
exactly N×M synthesized invocations occur — one per (event entry, handler)
pair — each receiving a payload `{user, segments, event}` with segments
defaulting to the empty list, subject equal to the literal string `event`,
and timestamp equal to the raw envelope `Timestamp` string (from which
the original notification's parsed timestamp was built), not the
notification's own timestamp value. -/
theorem fanout_synthesizes_one_per_pair (handlers : HandlerMap) (subj ts : String)
    (n : Notification) (body : MsgBody)
    (hname : getHandlerName subj = "user:update")
    (hmsg : n.message = some body)
    (hev : 0 < body.events.length)
    (hh : 0 < (handlers ("event")).length) :
    (synthInvocations handlers subj ts n).length
      = body.events.length * (handlers ("event")).length
    ∧ (∀ inv ∈ synthInvocations handlers subj ts n,
        inv.handler ∈ handlers ("event")
        ∧ ∃ ev ∈ body.events,
            inv.arg = .synth ⟨⟨body.user, body.segments, ev⟩, "event", .raw ts⟩)
    ∧ (∀ ev ∈ body.events, ∀ f ∈ handlers ("event"),
        (⟨f, .synth ⟨⟨body.user, body.segments, ev⟩, "event", .raw ts⟩⟩ : Invocation)
          ∈ synthInvocations handlers subj ts n) := by
  have hsynth : synthInvocations handlers subj ts n
      = body.events.flatMap (fun ev =>
          (handlers ("event")).map (fun f =>
            (⟨f, .synth ⟨⟨body.user, body.segments, ev⟩, "event", .raw ts⟩⟩ : Invocation))) := by
    unfold synthInvocations
    rw [if_pos ⟨hh, hname, by rw [hmsg]; rfl⟩]
    rw [hmsg]
    exact if_pos hev
  refine ⟨?_, ?_, ?_⟩
  · rw [hsynth]
    exact length_flatMap_const body.events (handlers ("event")) _
  · intro inv hinv
    rw [hsynth] at hinv
    obtain ⟨ev, hevm, hinv2⟩ := List.mem_flatMap.mp hinv
    obtain ⟨f, hf, heq⟩ := List.mem_map.mp hinv2
    constructor
    · rw [← heq]; exact hf
    · exact ⟨ev, hevm, by rw [← heq]⟩
  · intro ev hevm f hf
    rw [hsynth]
    exact List.mem_flatMap.mpr ⟨ev, hevm, List.mem_map_of_mem _ hf⟩

/-- C2 witness: the fan-out theorem evaluated on a concrete registry with
one `event` handler and a notification with one embedded event: exactly
1 × 1 synthesized invocation. -/
theorem fanout_synthesizes_one_per_pair_witness :
    (synthInvocations handlers0 ("user:update") ("T0") n0).length = 1 := by
  have h := fanout_synthesizes_one_per_pair handlers0 ("user:update") ("T0") n0
    ⟨some ("u"), [("e1")], []⟩ (by decide) (by decide) (by decide) (by decide)
  rw [h.1]
  decide

/-- C1 counterexample: with one invocation rejecting at instant 0 and a
sibling fulfilling at instant 5, `Promise.all` makes `processHandlers`
decide the error response at instant 0 — before the sibling has settled —
so the dispatcher does not wait for all started invocations to settle
before deciding the response. -/
theorem dispatch_decides_before_all_settle :
    ¬ (maxSettle (invs0.map run0) ≤ (dispatchDecision run0 invs0).time)
    ∧ dispatchDecision run0 invs0 = ⟨0, .respond ("boom") 400⟩
    ∧ maxSettle (invs0.map run0) = 5 := by decide

/-- C1 (amended): when at least one handler invocation is started, the
dispatcher waits for all of them only in the all-success case, where it
calls the next stage once the last invocation settles; if any invocation
fails, the response is decided at the earliest-settling failure — without
waiting for still-pending siblings — and carries that failure's error
message and its status code, defaulting to 400 when the error has no
status, even if sibling handlers succeed. -/
theorem dispatch_first_failure_decides (run : Invocation → Prom) (invs : List Invocation)
    (hne : invs ≠ []) :
    (earliestRejection (invs.map run) = none →
        dispatchDecision run invs = ⟨maxSettle (invs.map run), .next⟩)
    ∧ (∀ t e, earliestRejection (invs.map run) = some (t, e) →
        dispatchDecision run invs = ⟨t, .respond e.msg (jsOrStatus e.status)⟩
        ∧ (t, e) ∈ rejectionsOf (invs.map run)
        ∧ ∀ r ∈ rejectionsOf (invs.map run), t ≤ r.1) := by
  have hlen : 0 < (invs.map run).length := by
    rw [List.length_map]
    exact List.length_pos.mpr hne
  constructor
  · intro h
    simp [dispatchDecision, hlen, h, hne]
  · intro t e h
    refine ⟨by simp [dispatchDecision, hlen, h, hne], ?_, ?_⟩
    · exact (earliestRejection_spec (invs.map run) t e h).1
    · exact (earliestRejection_spec (invs.map run) t e h).2

/-- C1 amended-claim witness: the dispatch theorem evaluated on the
concrete two-invocation environment `run0`/`invs0`. -/
theorem dispatch_first_failure_decides_witness :
    invs0 ≠ [] ∧ dispatchDecision run0 invs0 = ⟨0, .respond ("boom") 400⟩ := by
  constructor
  · decide
  · have h := (dispatch_first_failure_decides run0 invs0 (by decide)).2 0
      ⟨"boom", none⟩ (by decide)
    exact h.1

/-- C3: the tenant-config cache coalesces fetches: an unforced resolution
that finds an existing cache entry issues no new fetch and returns the
stored in-flight-or-resolved fetch (so two resolutions for the same
tenant id issue at most one fetch between them, the second reusing the
first's handle and leaving the state unchanged); and whenever the current
request's envelope subject equals `ship:update`, the cached entry for the
request's ship id is dropped first and a fresh fetch is issued even if a
cached result existed. -/
theorem tenant_cache_coalesces_and_invalidates (st : CacheState) (id : String)
    (q : Query) (o s sec : String)
    (ho : normParam q.organization = some o) (ho0 : o ≠ "")
    (hs : normParam q.ship = some s) (hs0 : s ≠ "")
    (hsec : normParam q.secret = some sec) (hsec0 : sec ≠ "") :
    (∀ h, lookupCache st.cache id = some h → getCurrentShip st id false = (st, h))
    ∧ getCurrentShip ((getCurrentShip st id false).1) id false
        = ((getCurrentShip st id false).1, (getCurrentShip st id false).2)
    ∧ (getCurrentShip st id false).1.fetchCount ≤ st.fetchCount + 1
    ∧ ((getCurrentShip st id true).1.fetchCount = st.fetchCount + 1
        ∧ (getCurrentShip st id true).2 = ⟨id, st.fetchCount⟩)
    ∧ enrich q (some ("ship:update")) st
        = ((getCurrentShip st s true).1, .withClient o s sec (getCurrentShip st s true).2) := by
  have hto : jsTruthy (some o) = true := by simp [jsTruthy, ho0]
  have hts : jsTruthy (some s) = true := by simp [jsTruthy, hs0]
  have htsec : jsTruthy (some sec) = true := by simp [jsTruthy, hsec0]
  refine ⟨?_, ?_, ?_, ?_, ?_⟩
  · intro h hl
    simp [getCurrentShip, hl]
  · cases hl : lookupCache st.cache id with
    | some h => simp [getCurrentShip, hl]
    | none => simp [getCurrentShip, hl, lookupCache_insert]
  · cases hl : lookupCache st.cache id with
    | some h => simp [getCurrentShip, hl]
    | none => simp [getCurrentShip, hl]
  · constructor
    · simp [getCurrentShip, lookupCache_erase]
    · simp [getCurrentShip, lookupCache_erase]
  · simp [enrich, ho, hs, hsec, hto, hts, htsec]

/-- C3 witness: the cache theorem evaluated on the empty cache, a fresh
ship id and the concrete query `q1` (whose parameters normalize to
`org`, `s1`, `sec`): a forced resolution issues fetch number 0. -/
theorem tenant_cache_coalesces_and_invalidates_witness :
    (getCurrentShip st0 ("s1") true).2 = ⟨"s1", 0⟩
    ∧ enrich q1 (some ("ship:update")) st0
        = ((getCurrentShip st0 ("s1") true).1,
            .withClient ("org") ("s1") ("sec") (getCurrentShip st0 ("s1") true).2) := by
  have h := tenant_cache_coalesces_and_invalidates st0 ("s1") q1 ("org") ("s1") ("sec")
    (by decide) (by decide) (by decide) (by decide) (by decide) (by decide)
  exact ⟨h.2.2.2.1.2, h.2.2.2.2⟩

/-- C7: tenant resolution normalizes each of `organization`, `ship` and
`secret` by taking the first element if the value is a list and then
trimming; if any of the three normalized values is missing or empty,
resolution is skipped entirely without error and the pipeline continues
with no tenant context attached; only when all three are non-empty is an
API client constructed (from exactly the normalized triple) and the
tenant configuration fetched. -/
theorem tenant_resolution_gates_on_config (q : Query) (subj : Option String)
    (st : CacheState) :
    (∀ v : String, normParam (.str v) = some (jsTrim v))
    ∧ (∀ (v : String) (l : List String), normParam (.arr (v :: l)) = some (jsTrim v))
    ∧ normParam (.arr []) = none
    ∧ normParam .absent = none
    ∧ ((jsTruthy (normParam q.organization) = false
        ∨ jsTruthy (normParam q.ship) = false
        ∨ jsTruthy (normParam q.secret) = false) →
        enrich q subj st = (st, .skipped))
    ∧ (∀ o s sec : String,
        normParam q.organization = some o → o ≠ "" →
        normParam q.ship = some s → s ≠ "" →
        normParam q.secret = some sec → sec ≠ "" →
        enrich q subj st
          = ((getCurrentShip st s (subj == some ("ship:update"))).1,
              .withClient o s sec (getCurrentShip st s (subj == some ("ship:update"))).2)) := by
  refine ⟨fun v => rfl, fun v l => rfl, rfl, rfl, ?_, ?_⟩
  · intro hfalse
    unfold enrich
    rcases hfalse with h | h | h <;> simp [h]
  · intro o s sec ho ho0 hs hs0 hsec hsec0
    have hto : jsTruthy (some o) = true := by simp [jsTruthy, ho0]
    have hts : jsTruthy (some s) = true := by simp [jsTruthy, hs0]
    have htsec : jsTruthy (some sec) = true := by simp [jsTruthy, hsec0]
    simp [enrich, ho, hs, hsec, hto, hts, htsec]

/-- C7 witness: the gating theorem evaluated at `q2` (secret absent,
resolution skipped untouched) and at `q1` (all three present). -/
theorem tenant_resolution_gates_on_config_witness :
    enrich q2 none st0 = (st0, .skipped)
    ∧ enrich q1 none st0
        = ((getCurrentShip st0 ("s1") false).1,
            .withClient ("org") ("s1") ("sec") (getCurrentShip st0 ("s1") false).2) := by
  constructor
  · exact (tenant_resolution_gates_on_config q2 none st0).2.2.2.2.1
      (Or.inr (Or.inr (by decide)))
  · exact (tenant_resolution_gates_on_config q1 none st0).2.2.2.2.2 ("org") ("s1") ("sec")
      (by decide) (by decide) (by decide) (by decide) (by decide) (by decide)

/-- C5: when signature validation of the envelope fails, strict
enforcement makes the pipeline respond with the validator's error and
status 400; relaxed enforcement logs a warning and continues processing
the envelope exactly as if the signature had been valid; and the pipeline
constructed by `NotifHandler` always configures relaxed enforcement. -/
theorem signature_failure_policy (opts : VerifyOptions) (group : JsVal → JsVal)
    (m : SnsMessage) (e : String) (handshakeOk : Bool)
    (parsed : Except Unit (Option MsgBody)) :
    (opts.enforceValidation = true →
        verifySignatureStep opts group (some m) (some e) handshakeOk parsed
          = ⟨false, false, .respond e 400⟩)
    ∧ (opts.enforceValidation = false →
        (verifySignatureStep opts group (some m) (some e) handshakeOk parsed).warned = true
        ∧ (verifySignatureStep opts group (some m) (some e) handshakeOk parsed).onSubscribeInvoked
            = (verifySignatureStep opts group (some m) none handshakeOk parsed).onSubscribeInvoked
        ∧ (verifySignatureStep opts group (some m) (some e) handshakeOk parsed).action
            = (verifySignatureStep opts group (some m) none handshakeOk parsed).action)
    ∧ (∀ ugt hs, (notifHandlerVerifyOpts ugt hs).enforceValidation = false) := by
  refine ⟨?_, ?_, fun ugt hs => rfl⟩
  · intro h
    simp [verifySignatureStep, h]
  · intro h
    refine ⟨?_, ?_, ?_⟩ <;> simp [verifySignatureStep, h]

/-- C5 witness: the policy theorem evaluated under strict options (error
response with the validator's message) and under the options
`NotifHandler` builds (warning logged, processing continues). -/
theorem signature_failure_policy_witness :
    verifySignatureStep optsStrict id (some m0) (some ("bad")) true (.ok none)
      = ⟨false, false, .respond ("bad") 400⟩
    ∧ (verifySignatureStep (notifHandlerVerifyOpts none false) id (some m0)
        (some ("bad")) true (.ok none)).warned = true := by
  constructor
  · exact (signature_failure_policy optsStrict id m0 ("bad") true (.ok none)).1 rfl
  · exact ((signature_failure_policy (notifHandlerVerifyOpts none false) id m0 ("bad")
      true (.ok none)).2.1 rfl).1

/-- C6: for every envelope whose `Type` is neither
`SubscriptionConfirmation` nor `Notification`, the verification stage of
the pipeline constructed by `NotifHandler` reaches the `stall` action:
it neither invokes the next pipeline stage nor sends any response. -/
theorem unknown_type_stalls (ugt : Option Bool) (hs : Bool) (group : JsVal → JsVal)
    (m : SnsMessage) (sigErr : Option String) (handshakeOk : Bool)
    (parsed : Except Unit (Option MsgBody))
    (h1 : m.type ≠ "SubscriptionConfirmation") (h2 : m.type ≠ "Notification") :
    (verifySignatureStep (notifHandlerVerifyOpts ugt hs) group (some m) sigErr
        handshakeOk parsed).action = .stall := by
  cases sigErr with
  | none => simp [verifySignatureStep, verifyBranch, h1, h2]
  | some e => simp [verifySignatureStep, notifHandlerVerifyOpts, verifyBranch, h1, h2]

/-- C6 witness: the stall theorem evaluated at a concrete envelope of
type `Whatever`. -/
theorem unknown_type_stalls_witness :
    (verifySignatureStep (notifHandlerVerifyOpts none false) id (some mUnknown)
        none true (.ok none)).action = .stall :=
  unknown_type_stalls none false id mUnknown none true (.ok none) (by decide) (by decide)

/-- C8: for every envelope with `Type = SubscriptionConfirmation` (with a
valid signature or relaxed enforcement), a successful handshake GET
invokes the optional subscription callback exactly when one is configured
and terminates the request with status 200 and the literal body
`subscribed` — a terminal response, so no later pipeline stage runs;
a failed handshake responds `Failed to subscribe` with status 400. -/
theorem subscription_confirmation_flow (opts : VerifyOptions) (group : JsVal → JsVal)
    (m : SnsMessage) (sigErr : Option String) (parsed : Except Unit (Option MsgBody))
    (hty : m.type = "SubscriptionConfirmation")
    (hsig : sigErr = none ∨ opts.enforceValidation = false) :
    verifySignatureStep opts group (some m) sigErr true parsed
      = ⟨sigErr.isSome, opts.hasOnSubscribe, .respond ("subscribed") 200⟩
    ∧ verifySignatureStep opts group (some m) sigErr false parsed
      = ⟨sigErr.isSome, false, .respond ("Failed to subscribe") 400⟩ := by
  cases sigErr with
  | none => constructor <;> simp [verifySignatureStep, verifyBranch, hty]
  | some e =>
    have henf : opts.enforceValidation = false := by
      rcases hsig with h | h
      · exact absurd h (Option.some_ne_none e)
      · exact h
    constructor <;> simp [verifySignatureStep, verifyBranch, hty, henf]

/-- C8 witness: the handshake theorem evaluated at a concrete
confirmation envelope with a configured subscription callback. -/
theorem subscription_confirmation_flow_witness :
    verifySignatureStep (notifHandlerVerifyOpts none true) id (some mSub) none true (.ok none)
      = ⟨false, true, .respond ("subscribed") 200⟩ := by
  have h := subscription_confirmation_flow (notifHandlerVerifyOpts none true) id mSub
    none (.ok none) rfl (Or.inl rfl)
  exact h.1

/-- C9: for every request whose body fails to read or fails to parse as
structured text, the response is status 400 with the message
`Invalid body`, no decoded envelope reaches a later stage, and the
outcome of this stage is independent of the query parameters. -/
theorem malformed_body_rejected (parse : String → Option SnsMessage) (q qB : Query)
    (readRes : Option String)
    (hbad : readRes = none ∨ ∃ b, readRes = some b ∧ parse b = none) :
    (parseRequest parse q readRes = .respond ("Invalid body") 400
      ∧ ∀ env, parseRequest parse q readRes ≠ .next env)
    ∧ parseRequest parse q readRes = parseRequest parse qB readRes := by
  have hval : parseRequest parse q readRes = .respond ("Invalid body") 400 := by
    rcases hbad with h | ⟨b, hb, hp⟩
    · rw [h]; rfl
    · rw [hb]; simp [parseRequest, hp]
  refine ⟨⟨hval, ?_⟩, rfl⟩
  intro env henv
  rw [hval] at henv
  cases henv

/-- C9 witness: the rejection theorem evaluated with a parse function
that fails on the concrete body `oops`, under two different queries. -/
theorem malformed_body_rejected_witness :
    parseRequest (fun _ => none) q1 (some ("oops")) = .respond ("Invalid body") 400 := by
  have h := malformed_body_rejected (fun _ => none) q1 q2 (some ("oops"))
    (Or.inr ⟨"oops", rfl, rfl⟩)
  exact h.1.1

end Hull
